import Mathlib

/-!
Shallow embedding of the ariakit composite/collection/tooltip store logic.

The definitions below are translated from the TypeScript sources:

* `src/packages/ariakit-core/src/composite/composite-store.ts`
  (the composite navigation algorithm: `findFirstEnabledItem`,
  `getEnabledItems`, `getOppositeOrientation`, `getItemsInRow`, `flipItems`,
  `getActiveId`, `groupItemsByRows`, `getMaxRowLength`, `createEmptyItem`,
  `normalizeRows`, `verticalizeItems`, `getNextId`, and the store methods
  `move`, `first`, `last`, `next`, `previous`, `down`, `up`), together with
  the collection store's `mergeItem`/`registerItem` found in the same file.
* `src/packages/ariakit/src/combobox/store-combobox-popover.ts`
  (a second, embedded copy of the composite store, modelled in namespace
  `Pop`, and the tooltip store's shared active-tooltip token logic).

JavaScript values are modelled as follows: a possibly-`null` string id is
`Option String` (`none` = JS `null`); the `activeId` state field, which may
be a string, `null` or `undefined`, is `Option (Option String)` (`none` =
`undefined`, `some none` = `null`); the return type of the navigation
methods is likewise `Option (Option String)`.  Optional object fields
(`element?`, `rowId?`, `disabled?`, `children?`) are `Option` fields, with
JS truthiness made explicit by helper functions.  `reverseArray` and
`flatten2DArray` (imported by the sources from a utility module that is not
part of the source tree) are array reversal and one-level flattening, i.e.
`List.reverse` and `List.flatten`.
-/

namespace Ariakit

/-- A composite item: `{ id, element?, rowId?, disabled?, children? }`.
`id : Option String` so that the special `NULL_ITEM = { id: null }` is
representable; ordinary items always carry `some id`.  The `element` handle
is opaque; only its presence/identity matters. -/
structure Item where
  id : Option String
  element : Option Nat := none
  rowId : Option String := none
  disabled : Option Bool := none
  children : Option String := none
deriving Repr, DecidableEq

/-- JS truthiness of an optional string: `undefined` and `""` are falsy. -/
def strTruthy : Option String → Bool
  | none => false
  | some s => s != ""

/-- JS truthiness of the optional `disabled` field: only `disabled: true` is
truthy (`undefined` and `false` are falsy). -/
def Item.isDisabled (it : Item) : Bool := it.disabled == some true

/-- `const NULL_ITEM = { id: null as unknown as string }` -/
def NULL_ITEM : Item := { id := none }

/-- `orientation` values. -/
inductive Orientation where
  | horizontal | vertical | both
deriving Repr, DecidableEq

/-- A `focusLoop` / `focusWrap` value: `boolean | Orientation`. -/
inductive FocusOpt where
  | off | on | horizontal | vertical | both
deriving Repr, DecidableEq

/-- JS truthiness of a `boolean | Orientation` value (`false` is the only
falsy inhabitant; the orientation strings are non-empty, hence truthy). -/
def FocusOpt.truthy : FocusOpt → Bool
  | .off => false
  | _ => true

/-- JS strict equality between a `boolean | Orientation` value and an
optional orientation (`getOppositeOrientation` result): only the matching
orientation strings compare equal. -/
def FocusOpt.matchesOpt : FocusOpt → Option Orientation → Bool
  | .horizontal, some .horizontal => true
  | .vertical, some .vertical => true
  | _, _ => false

/-- JS strict equality of a `boolean | Orientation` value with the string
literal `"horizontal"`. -/
def FocusOpt.isHorizontalStr : FocusOpt → Bool
  | .horizontal => true
  | _ => false

/-- The composite store state fields consulted by the navigation methods. -/
structure CompositeState where
  renderedItems : List Item
  activeId : Option (Option String) := none
  orientation : Orientation := .both
  rtl : Bool := false
  focusLoop : FocusOpt := .off
  focusWrap : FocusOpt := .off
  focusShift : Bool := false
  includesBaseElement : Bool := false
  moves : Nat := 0
deriving Repr, DecidableEq

/-- `findFirstEnabledItem(items, excludeId?)`: first item that is not
disabled and (when `excludeId` is truthy) whose id differs from it. -/
def findFirstEnabledItem (items : List Item) (excludeId : Option String := none) :
    Option Item :=
  items.find? fun item =>
    if strTruthy excludeId then !item.isDisabled && item.id != excludeId
    else !item.isDisabled

/-- `getEnabledItems(items, excludeId?)`. -/
def getEnabledItems (items : List Item) (excludeId : Option String := none) :
    List Item :=
  items.filter fun item =>
    if strTruthy excludeId then !item.isDisabled && item.id != excludeId
    else !item.isDisabled

/-- `getOppositeOrientation(orientation)`. -/
def getOppositeOrientation : Orientation → Option Orientation
  | .vertical => some .horizontal
  | .horizontal => some .vertical
  | .both => none

/-- `getItemsInRow(items, rowId?)`. -/
def getItemsInRow (items : List Item) (rowId : Option String) : List Item :=
  items.filter fun item => item.rowId == rowId

/-- `flipItems(items, activeId, shouldInsertNullItem)`: items after the
active one, then optionally `NULL_ITEM`, then the items before it.  When
`findIndex` misses (JS index `-1`), `slice(0)` is the whole list and
`slice(0, -1)` drops the last element. -/
def flipItems (items : List Item) (activeId : String)
    (shouldInsertNullItem : Bool := false) : List Item :=
  match items.findIdx? (fun item => item.id == some activeId) with
  | some index =>
      items.drop (index + 1) ++
        (if shouldInsertNullItem then [NULL_ITEM] else []) ++ items.take index
  | none =>
      items ++ (if shouldInsertNullItem then [NULL_ITEM] else []) ++ items.dropLast

/-- `getActiveId(items, activeId?, passedId?)`. -/
def getActiveId (items : List Item) (activeId : Option (Option String))
    (passedId : Option (Option String) := none) : Option (Option String) :=
  match passedId with
  | some p => some p
  | none =>
    match activeId with
    | some a => some a
    | none => (findFirstEnabledItem items).map (·.id)

/-- One step of `groupItemsByRows`: append `item` to the first row whose
first element has the same `rowId`, or start a new row. -/
def pushToRow (rows : List (List Item)) (item : Item) : List (List Item) :=
  match rows with
  | [] => [[item]]
  | row :: rest =>
    if (row.head?.bind (·.rowId)) == item.rowId then (row ++ [item]) :: rest
    else row :: pushToRow rest item

/-- `groupItemsByRows(items)`. -/
def groupItemsByRows (items : List Item) : List (List Item) :=
  items.foldl pushToRow []

/-- `getMaxRowLength(array)`. -/
def getMaxRowLength (rows : List (List Item)) : Nat :=
  rows.foldl (fun maxLength row => max maxLength row.length) 0

/-- `createEmptyItem(rowId?)`. -/
def createEmptyItem (rowId : Option String) : Item :=
  { id := some "__EMPTY_ITEM__", disabled := some true, rowId }

/-- JS element assignment `row[i] = x` for the indices used by
`normalizeRows` (always `i ≤ row.length`, so no sparse holes arise). -/
def listAssign (row : List Item) (i : Nat) (x : Item) : List Item :=
  if i < row.length then row.set i x else row ++ [x]

/-- One iteration of the in-place per-row loop of `normalizeRows` at column
`i`; `row[i - 1]` at `i = 0` is the JS out-of-bounds read `undefined`. -/
def normStep (activeId : Option (Option String)) (focusShift : Bool)
    (row : List Item) (i : Nat) : List Item :=
  let needsFill : Bool :=
    match row.get? i with
    | none => true
    | some item => focusShift && item.isDisabled
  if needsFill then
    let previousItem : Option Item :=
      if i == 0 then
        (if focusShift then findFirstEnabledItem row else none)
      else row.get? (i - 1)
    let newItem : Item :=
      match previousItem with
      | some p =>
        if activeId != some p.id && focusShift then p
        else createEmptyItem p.rowId
      | none => createEmptyItem none
    listAssign row i newItem
  else row

/-- The per-row loop of `normalizeRows`, as a fold of `normStep` over the
column indices. -/
def normalizeRow (maxLength : Nat) (activeId : Option (Option String))
    (focusShift : Bool) (row : List Item) : List Item :=
  (List.range maxLength).foldl (normStep activeId focusShift) row

/-- `normalizeRows(rows, activeId?, focusShift?)`. -/
def normalizeRows (rows : List (List Item)) (activeId : Option (Option String))
    (focusShift : Bool) : List (List Item) :=
  rows.map (normalizeRow (getMaxRowLength rows) activeId focusShift)

/-- `verticalizeItems(items)`: transpose the rows into column order,
re-labelling `rowId` with the column index for grid items and keeping it
`undefined` for single-row items (`item.rowId ? i.toString() : undefined`,
with JS string truthiness): the body of the loop over column index `i`. -/
def vertStep (rows : List (List Item)) (verticalized : List Item) (i : Nat) :
    List Item :=
  verticalized ++ rows.filterMap (fun row =>
    (row.get? i).map (fun item =>
      { item with rowId := if strTruthy item.rowId then some (toString i) else none }))

/-- `verticalizeItems(items)`, as a fold of `vertStep` over the column
indices. -/
def verticalizeItems (items : List Item) : List Item :=
  let rows := groupItemsByRows items
  let maxLength := getMaxRowLength rows
  (List.range maxLength).foldl (vertStep rows) []

/-- JS `x || null` on an optional id (`undefined`, `null` and `""` all map
to `null`). -/
def jsOrNull : Option (Option String) → Option String
  | some (some s) => if s = "" then none else some s
  | _ => none

/-- JS truthiness of the optional `skip` argument (`undefined` and `0` are
falsy). -/
def jsSkipTruthy : Option Nat → Bool
  | none => false
  | some n => n != 0

/-- `getNextId(items, orientation, hasNullItem, skip)` — the core candidate
search.  The store state fields it reads (`activeId`, `rtl`, `focusLoop`,
`focusWrap`, `includesBaseElement`) are taken from `s`.  The JS guard
`activeId == null` is true for both `undefined` and `null`, and
`orientation || "horizontal"` is just `orientation` (never falsy). -/
def getNextId (s : CompositeState) (items : List Item) (orientation : Orientation)
    (hasNullItem : Bool) (skip : Option Nat) : Option (Option String) :=
  let isHorizontal := orientation != Orientation.vertical
  let isRTL := s.rtl && isHorizontal
  let allItems := if isRTL then items.reverse else items
  match s.activeId with
  | none => (findFirstEnabledItem allItems).map (·.id)
  | some none => (findFirstEnabledItem allItems).map (·.id)
  | some (some activeId) =>
    match allItems.find? (fun item => item.id == some activeId) with
    | none => (findFirstEnabledItem allItems).map (·.id)
    | some activeItem =>
      let isGrid := strTruthy activeItem.rowId
      let activeIndex := (allItems.findIdx? (fun item => item.id == some activeId)).getD 0
      let nextItems := allItems.drop (activeIndex + 1)
      let nextItemsInRow := getItemsInRow nextItems activeItem.rowId
      match skip with
      | some sk =>
        let nextEnabledItemsInRow := getEnabledItems nextItemsInRow (some activeId)
        let nextItem : Option Item :=
          match (nextEnabledItemsInRow.drop sk).head? with
          | some it => some it
          | none => nextEnabledItemsInRow.getLast?
        nextItem.map (·.id)
      | none =>
        let oppositeOrientation := getOppositeOrientation orientation
        let canLoop := s.focusLoop.truthy && !(s.focusLoop.matchesOpt oppositeOrientation)
        let canWrap := isGrid && s.focusWrap.truthy &&
          !(s.focusWrap.matchesOpt oppositeOrientation)
        let hasNullItem := hasNullItem || (!isGrid && canLoop && s.includesBaseElement)
        if canLoop then
          let loopItems :=
            if canWrap && !hasNullItem then allItems
            else getItemsInRow allItems activeItem.rowId
          let sortedItems := flipItems loopItems activeId hasNullItem
          (findFirstEnabledItem sortedItems (some activeId)).map (·.id)
        else if canWrap then
          let nextItem :=
            findFirstEnabledItem (if hasNullItem then nextItemsInRow else nextItems)
              (some activeId)
          if hasNullItem then some (jsOrNull (nextItem.map (·.id)))
          else nextItem.map (·.id)
        else
          match findFirstEnabledItem nextItemsInRow (some activeId) with
          | none => if hasNullItem then some none else none
          | some nextItem => some nextItem.id

/-- Store method `move(id)`: `undefined` is a no-op; otherwise set
`activeId` and increment `moves`. -/
def move (s : CompositeState) (id : Option (Option String)) : CompositeState :=
  match id with
  | none => s
  | some v => { s with activeId := some v, moves := s.moves + 1 }

/-- Store method `first()`. -/
def first (s : CompositeState) : Option (Option String) :=
  (findFirstEnabledItem s.renderedItems).map (·.id)

/-- Store method `last()`. -/
def last (s : CompositeState) : Option (Option String) :=
  (findFirstEnabledItem s.renderedItems.reverse).map (·.id)

/-- Store method `next(skip?)`. -/
def next (s : CompositeState) (skip : Option Nat := none) : Option (Option String) :=
  getNextId s s.renderedItems s.orientation false skip

/-- Store method `previous(skip?)`. -/
def previous (s : CompositeState) (skip : Option Nat := none) : Option (Option String) :=
  let isGrid := strTruthy ((findFirstEnabledItem s.renderedItems).bind (·.rowId))
  let hasNullItem := !isGrid && s.includesBaseElement
  getNextId s s.renderedItems.reverse s.orientation hasNullItem skip

/-- Store method `down(skip?)`. -/
def down (s : CompositeState) (skip : Option Nat := none) : Option (Option String) :=
  let shouldShift := s.focusShift && !(jsSkipTruthy skip)
  let verticalItems := verticalizeItems
    (List.flatten (normalizeRows (groupItemsByRows s.renderedItems) s.activeId shouldShift))
  let canLoop := s.focusLoop.truthy && !s.focusLoop.isHorizontalStr
  let hasNullItem := canLoop && s.includesBaseElement
  getNextId s verticalItems .vertical hasNullItem skip

/-- Store method `up(skip?)`. -/
def up (s : CompositeState) (skip : Option Nat := none) : Option (Option String) :=
  let shouldShift := s.focusShift && !(jsSkipTruthy skip)
  let verticalItems := verticalizeItems
    (List.flatten (normalizeRows (groupItemsByRows s.renderedItems) s.activeId shouldShift)).reverse
  let hasNullItem := s.includesBaseElement
  getNextId s verticalItems .vertical hasNullItem skip

/-- The `sync` listener installed at store setup: on every `renderedItems`
or `activeId` update, `setState("activeId", getActiveId(renderedItems,
activeId))`. -/
def healActiveId (s : CompositeState) : CompositeState :=
  { s with activeId := getActiveId s.renderedItems s.activeId }

/-! ### The composite store copy embedded in `store-combobox-popover.ts`

The file `src/packages/ariakit/src/combobox/store-combobox-popover.ts`
contains a second, self-contained `createCompositeStore` implementation.
Namespace `Pop` embeds that copy.  Its `Item` type is `{ id, element?,
rowId?, disabled? }`; we reuse the `Item` structure above (whose extra
`children` field no function of this copy ever consults), so that both
implementations can be compared on literally the same states. -/

namespace Pop

/-- `findFirstEnabledItem` of the popover copy. -/
def findFirstEnabledItem (items : List Item) (excludeId : Option String := none) :
    Option Item :=
  items.find? fun item =>
    if strTruthy excludeId then !item.isDisabled && item.id != excludeId
    else !item.isDisabled

/-- `getEnabledItems` of the popover copy. -/
def getEnabledItems (items : List Item) (excludeId : Option String := none) :
    List Item :=
  items.filter fun item =>
    if strTruthy excludeId then !item.isDisabled && item.id != excludeId
    else !item.isDisabled

/-- `getOppositeOrientation` of the popover copy. -/
def getOppositeOrientation : Orientation → Option Orientation
  | .vertical => some .horizontal
  | .horizontal => some .vertical
  | .both => none

/-- `getItemsInRow` of the popover copy. -/
def getItemsInRow (items : List Item) (rowId : Option String) : List Item :=
  items.filter fun item => item.rowId == rowId

/-- `flipItems` of the popover copy. -/
def flipItems (items : List Item) (activeId : String)
    (shouldInsertNullItem : Bool := false) : List Item :=
  match items.findIdx? (fun item => item.id == some activeId) with
  | some index =>
      items.drop (index + 1) ++
        (if shouldInsertNullItem then [NULL_ITEM] else []) ++ items.take index
  | none =>
      items ++ (if shouldInsertNullItem then [NULL_ITEM] else []) ++ items.dropLast

/-- `getActiveId` of the popover copy. -/
def getActiveId (items : List Item) (activeId : Option (Option String))
    (passedId : Option (Option String) := none) : Option (Option String) :=
  match passedId with
  | some p => some p
  | none =>
    match activeId with
    | some a => some a
    | none => (findFirstEnabledItem items).map (fun it => it.id)

/-- One step of the popover copy's `groupItemsByRows`. -/
def pushToRow (rows : List (List Item)) (item : Item) : List (List Item) :=
  match rows with
  | [] => [[item]]
  | row :: rest =>
    if (row.head?.bind (fun it => it.rowId)) == item.rowId then (row ++ [item]) :: rest
    else row :: pushToRow rest item

/-- `groupItemsByRows` of the popover copy. -/
def groupItemsByRows (items : List Item) : List (List Item) :=
  items.foldl pushToRow []

/-- `getMaxRowLength` of the popover copy. -/
def getMaxRowLength (rows : List (List Item)) : Nat :=
  rows.foldl (fun maxLength row => max maxLength row.length) 0

/-- `createEmptyItem` of the popover copy. -/
def createEmptyItem (rowId : Option String) : Item :=
  { id := some "__EMPTY_ITEM__", disabled := some true, rowId }

/-- `normalizeRows` per-row loop of the popover copy. -/
def normalizeRow (maxLength : Nat) (activeId : Option (Option String))
    (focusShift : Bool) (row : List Item) : List Item :=
  (List.range maxLength).foldl
    (fun row i =>
      let needsFill : Bool :=
        match row.get? i with
        | none => true
        | some item => focusShift && item.isDisabled
      if needsFill then
        let previousItem : Option Item :=
          if i == 0 then
            (if focusShift then findFirstEnabledItem row else none)
          else row.get? (i - 1)
        let newItem : Item :=
          match previousItem with
          | some p =>
            if activeId != some p.id && focusShift then p
            else createEmptyItem p.rowId
          | none => createEmptyItem none
        listAssign row i newItem
      else row)
    row

/-- `normalizeRows` of the popover copy. -/
def normalizeRows (rows : List (List Item)) (activeId : Option (Option String))
    (focusShift : Bool) : List (List Item) :=
  rows.map (normalizeRow (getMaxRowLength rows) activeId focusShift)

/-- `verticalizeItems` of the popover copy. -/
def verticalizeItems (items : List Item) : List Item :=
  let rows := groupItemsByRows items
  let maxLength := getMaxRowLength rows
  (List.range maxLength).foldl
    (fun verticalized i =>
      verticalized ++ rows.filterMap (fun row =>
        (row.get? i).map (fun item =>
          { item with rowId := if strTruthy item.rowId then some (toString i) else none })))
    []

/-- `getNextId` of the popover copy. -/
def getNextId (s : CompositeState) (items : List Item) (orientation : Orientation)
    (hasNullItem : Bool) (skip : Option Nat) : Option (Option String) :=
  let isHorizontal := orientation != Orientation.vertical
  let isRTL := s.rtl && isHorizontal
  let allItems := if isRTL then items.reverse else items
  match s.activeId with
  | none => (findFirstEnabledItem allItems).map (fun it => it.id)
  | some none => (findFirstEnabledItem allItems).map (fun it => it.id)
  | some (some activeId) =>
    match allItems.find? (fun item => item.id == some activeId) with
    | none => (findFirstEnabledItem allItems).map (fun it => it.id)
    | some activeItem =>
      let isGrid := strTruthy activeItem.rowId
      let activeIndex := (allItems.findIdx? (fun item => item.id == some activeId)).getD 0
      let nextItems := allItems.drop (activeIndex + 1)
      let nextItemsInRow := getItemsInRow nextItems activeItem.rowId
      match skip with
      | some sk =>
        let nextEnabledItemsInRow := getEnabledItems nextItemsInRow (some activeId)
        let nextItem : Option Item :=
          match (nextEnabledItemsInRow.drop sk).head? with
          | some it => some it
          | none => nextEnabledItemsInRow.getLast?
        nextItem.map (fun it => it.id)
      | none =>
        let oppositeOrientation := getOppositeOrientation orientation
        let canLoop := s.focusLoop.truthy && !(s.focusLoop.matchesOpt oppositeOrientation)
        let canWrap := isGrid && s.focusWrap.truthy &&
          !(s.focusWrap.matchesOpt oppositeOrientation)
        let hasNullItem := hasNullItem || (!isGrid && canLoop && s.includesBaseElement)
        if canLoop then
          let loopItems :=
            if canWrap && !hasNullItem then allItems
            else getItemsInRow allItems activeItem.rowId
          let sortedItems := flipItems loopItems activeId hasNullItem
          (findFirstEnabledItem sortedItems (some activeId)).map (fun it => it.id)
        else if canWrap then
          let nextItem :=
            findFirstEnabledItem (if hasNullItem then nextItemsInRow else nextItems)
              (some activeId)
          if hasNullItem then some (jsOrNull (nextItem.map (fun it => it.id)))
          else nextItem.map (fun it => it.id)
        else
          match findFirstEnabledItem nextItemsInRow (some activeId) with
          | none => if hasNullItem then some none else none
          | some nextItem => some nextItem.id

/-- `move` of the popover copy. -/
def move (s : CompositeState) (id : Option (Option String)) : CompositeState :=
  match id with
  | none => s
  | some v => { s with activeId := some v, moves := s.moves + 1 }

/-- `first` of the popover copy. -/
def first (s : CompositeState) : Option (Option String) :=
  (findFirstEnabledItem s.renderedItems).map (fun it => it.id)

/-- `last` of the popover copy. -/
def last (s : CompositeState) : Option (Option String) :=
  (findFirstEnabledItem s.renderedItems.reverse).map (fun it => it.id)

/-- `next` of the popover copy. -/
def next (s : CompositeState) (skip : Option Nat := none) : Option (Option String) :=
  getNextId s s.renderedItems s.orientation false skip

/-- `previous` of the popover copy. -/
def previous (s : CompositeState) (skip : Option Nat := none) : Option (Option String) :=
  let isGrid := strTruthy ((findFirstEnabledItem s.renderedItems).bind (fun it => it.rowId))
  let hasNullItem := !isGrid && s.includesBaseElement
  getNextId s s.renderedItems.reverse s.orientation hasNullItem skip

/-- `down` of the popover copy. -/
def down (s : CompositeState) (skip : Option Nat := none) : Option (Option String) :=
  let shouldShift := s.focusShift && !(jsSkipTruthy skip)
  let verticalItems := verticalizeItems
    (List.flatten (normalizeRows (groupItemsByRows s.renderedItems) s.activeId shouldShift))
  let canLoop := s.focusLoop.truthy && !s.focusLoop.isHorizontalStr
  let hasNullItem := canLoop && s.includesBaseElement
  getNextId s verticalItems .vertical hasNullItem skip

/-- `up` of the popover copy. -/
def up (s : CompositeState) (skip : Option Nat := none) : Option (Option String) :=
  let shouldShift := s.focusShift && !(jsSkipTruthy skip)
  let verticalItems := verticalizeItems
    (List.flatten (normalizeRows (groupItemsByRows s.renderedItems) s.activeId shouldShift)).reverse
  let hasNullItem := s.includesBaseElement
  getNextId s verticalItems .vertical hasNullItem skip

end Pop

/-! ### Collection store: `mergeItem` / `registerItem` / unregister -/

/-- The object spread `{ ...prevItem, ...item }` used by `mergeItem`: the
new item's fields win, fields the new item does not carry are kept from the
previous entry (`id` is always carried by the new item). -/
def mergeFields (prevItem item : Item) : Item :=
  { id := item.id
    element := match item.element with | some e => some e | none => prevItem.element
    rowId := match item.rowId with | some r => some r | none => prevItem.rowId
    disabled := match item.disabled with | some d => some d | none => prevItem.disabled
    children := match item.children with | some c => some c | none => prevItem.children }

/-- The immediate `setItems` update performed by
`mergeItem(item, setItems)`: merge into the entry with the same id (at its
index) or push at the end.  Returns the updated list together with the
`prevItem` and `index` values that the closure captures for the
unregister function. -/
def registerItemFn (items : List Item) (item : Item) :
    List Item × Option Item × Option Nat :=
  match items.find? (fun it => it.id == item.id) with
  | some prevItem =>
    let index := (items.findIdx? (fun it => it.id == item.id)).getD 0
    (items.set index (mergeFields prevItem item), some prevItem, some index)
  | none => (items ++ [item], none, none)

/-- The `unregisterItem` closure returned by `mergeItem`, applied to the
current `items` with the captured `prevItem` and `index`: remove the item
when nothing pre-existed, otherwise write the previous entry back at the
captured index. -/
def unregisterItemFn (items : List Item) (item : Item)
    (prevItem : Option Item) (index : Option Nat) : List Item :=
  match prevItem with
  | none => items.filter (fun it => !(it.id == item.id))
  | some prev =>
    match index with
    | none => items
    | some i => items.set i prev

/-! ### Tooltip store: shared active-tooltip token

`createTooltipStore` keeps a module-level store
`tooltips = createStore({ activeRef: null })`.  Every tooltip store
instance allocates a fresh `ref = Symbol()` and installs
(1) a `disclosure.sync` handler on `open` and (2) a `tooltips.sync`
handler that mirrors `open = (activeRef === ref)` into the instance.
We model a system of two tooltip instances with refs `1` and `2`. -/

/-- Shared token plus the `open` state and `timeout` option of two tooltip
store instances (refs `1` and `2`). -/
structure TooltipSys where
  activeRef : Option Nat := none
  open1 : Bool := false
  open2 : Bool := false
  timeout1 : Nat := 0
  timeout2 : Nat := 0
deriving Repr, DecidableEq

/-- The `tooltips.sync` listeners of both instances, run synchronously after
any `activeRef` update: each instance sets its `open` to
`activeRef === ref`. -/
def tooltipBroadcast (s : TooltipSys) : TooltipSys :=
  { s with open1 := s.activeRef == some 1, open2 := s.activeRef == some 2 }

/-- The `disclosure.sync` handler of instance 2 when its disclosure `open`
becomes `true`: with no timeout or an already-active tooltip, take the
token and open immediately (this synchronously runs the `activeRef`
listeners of every instance); otherwise clear the token and schedule a
delayed callback.  The returned flag records whether a timer was
scheduled (`afterTimeout` was called). -/
def tooltipDiscOpen2 (s : TooltipSys) : TooltipSys × Bool :=
  if s.timeout2 == 0 || s.activeRef.isSome then
    (let s1 := tooltipBroadcast { s with activeRef := some 2 }
     ({ s1 with open2 := true }, false))
  else
    (tooltipBroadcast { s with activeRef := none }, true)

/-! ### General list lemmas used by the verification -/

/-- `find?` only looks at the predicate's values on the list's elements. -/
theorem find?_congr_on {α : Type _} {p q : α → Bool} :
    ∀ {l : List α}, (∀ x ∈ l, p x = q x) → l.find? p = l.find? q := by
  intro l
  induction l with
  | nil => intro _; rfl
  | cons a l ih =>
    intro h
    rw [List.find?_cons, List.find?_cons, h a (List.mem_cons_self a l)]
    cases q a with
    | true => rfl
    | false => exact ih fun x hx => h x (List.mem_cons_of_mem a hx)

/-- `findIdx?` of a list split around the first element satisfying `p`. -/
theorem findIdx?_split {α : Type _} {p : α → Bool} {e : α} (he : p e = true) :
    ∀ (pre : List α), (∀ x ∈ pre, p x = false) → ∀ (post : List α),
      (pre ++ e :: post).findIdx? p = some pre.length := by
  intro pre
  induction pre with
  | nil =>
    intro _ post
    simp [List.findIdx?_cons, he]
  | cons a pre ih =>
    intro h post
    rw [List.cons_append, List.findIdx?_cons, h a (List.mem_cons_self a pre),
      List.findIdx?_succ, ih (fun x hx => h x (List.mem_cons_of_mem a hx)) post]
    rfl

/-- Writing back the value already stored at an index is the identity. -/
theorem set_of_get?_eq {α : Type _} {a : α} :
    ∀ {l : List α} {i : Nat}, l.get? i = some a → l.set i a = l := by
  intro l
  induction l with
  | nil => intro i h; cases h
  | cons b l ih =>
    intro i h
    cases i with
    | zero => cases h; rfl
    | succ i => simpa using ih (by simpa using h)

/-- A `getLast?` result is a member of the list. -/
theorem mem_of_getLast?_eq_some {α : Type _} {a : α} :
    ∀ {l : List α}, l.getLast? = some a → a ∈ l := by
  intro l
  induction l with
  | nil => intro h; cases h
  | cons b l ih =>
    intro h
    cases l with
    | nil => cases h; exact List.mem_singleton.mpr rfl
    | cons c l => exact List.mem_cons_of_mem b (ih (by simpa using h))

/-- A `head?` result is a member of the list. -/
theorem mem_of_head?_eq_some {α : Type _} {a : α} {l : List α}
    (h : l.head? = some a) : a ∈ l := by
  cases l with
  | nil => cases h
  | cons b l => cases h; exact List.mem_cons_self a l

/-! ### Claim theorems -/

/-- Concrete enabled items used by the scenario theorems. -/
def itemA : Item := { id := some "A" }
def itemB : Item := { id := some "B" }
def itemC : Item := { id := some "C" }

/-- Grid items for the 2×2 scenario: rows `r1 = [A, B]`, `r2 = [C, D]`. -/
def gridA : Item := { id := some "A", rowId := some "r1" }
def gridB : Item := { id := some "B", rowId := some "r1" }
def gridC : Item := { id := some "C", rowId := some "r2" }
def gridD : Item := { id := some "D", rowId := some "r2" }

/-- C2: on the 2×2 grid `[[A,B],[C,D]]` (two rows by `rowId`, all enabled,
default options), `down()` from `activeId = B` returns `"D"`, and `up()`
from `activeId = D` returns `"B"`: vertical movement via row grouping,
padding and transposition lands on the item in the same column of the
adjacent row. -/
theorem down_up_grid_2x2 :
    down { renderedItems := [gridA, gridB, gridC, gridD],
           activeId := some (some "B") } none = some (some "D") ∧
    up { renderedItems := [gridA, gridB, gridC, gridD],
         activeId := some (some "D") } none = some (some "B") := by
  constructor <;> rfl

/-- Unequal-row grid items: row `r1 = [A]`, row `r2 = [B(disabled), C]`. -/
def unevenA : Item := { id := some "A", rowId := some "r1" }
def unevenB : Item := { id := some "B", rowId := some "r2", disabled := some true }
def unevenC : Item := { id := some "C", rowId := some "r2" }

/-- Unequal-row grid items: row `r1 = [A, B]`, row `r2 = [C]`. -/
def shortA : Item := { id := some "A", rowId := some "r1" }
def shortB : Item := { id := some "B", rowId := some "r1" }
def shortC : Item := { id := some "C", rowId := some "r2" }

/-- C4: on grids with rows of unequal length, `down(0)` moves to the
nearest enabled cell of the next row when `focusShift` is true, and is a
no-op (returns `undefined`; the disabled padding placeholder or disabled
cell at the target column is skipped by the candidate search) when
`focusShift` is false.  Both readings of the scenario are covered: from
`A`, the only (hence first) item of the shortest row `[A]` over
`[B(disabled), C]`, and from `B`, the item of `[A, B]` whose column is a
disabled placeholder in the shorter row `[C]`. -/
theorem down_skip0_focusShift :
    down { renderedItems := [unevenA, unevenB, unevenC],
           activeId := some (some "A"), focusShift := true } (some 0)
      = some (some "C") ∧
    down { renderedItems := [unevenA, unevenB, unevenC],
           activeId := some (some "A"), focusShift := false } (some 0) = none ∧
    down { renderedItems := [shortA, shortB, shortC],
           activeId := some (some "B"), focusShift := true } (some 0)
      = some (some "C") ∧
    down { renderedItems := [shortA, shortB, shortC],
           activeId := some (some "B"), focusShift := false } (some 0) = none := by
  refine ⟨?_, ?_, ?_, ?_⟩ <;> rfl

/-- C6: `move(undefined)` changes no state field; `move(id)` for a defined
`id` (a string or `null`) sets `activeId` to exactly that id, increments
`moves` by exactly one, and leaves every other field unchanged; moreover
the `activeId` sync listener (`healActiveId`) keeps the committed id, since
it only recomputes an `undefined` `activeId`. -/
theorem move_undefined_noop_move_id_commits (s : CompositeState) (v : Option String) :
    move s none = s ∧
    (move s (some v)).activeId = some v ∧
    (move s (some v)).moves = s.moves + 1 ∧
    (move s (some v)).renderedItems = s.renderedItems ∧
    (move s (some v)).orientation = s.orientation ∧
    (move s (some v)).rtl = s.rtl ∧
    (move s (some v)).focusLoop = s.focusLoop ∧
    (move s (some v)).focusWrap = s.focusWrap ∧
    (move s (some v)).focusShift = s.focusShift ∧
    (move s (some v)).includesBaseElement = s.includesBaseElement ∧
    healActiveId (move s (some v)) = move s (some v) :=
  ⟨rfl, rfl, rfl, rfl, rfl, rfl, rfl, rfl, rfl, rfl, rfl⟩

/-- The two copies' `pushToRow` loops agree. -/
theorem pushToRow_eq (rows : List (List Item)) (item : Item) :
    Pop.pushToRow rows item = pushToRow rows item := by
  induction rows with
  | nil => rfl
  | cons row rest ih => simp [Pop.pushToRow, pushToRow, ih]

/-- The two copies' `groupItemsByRows` agree. -/
theorem groupItemsByRows_eq : Pop.groupItemsByRows = groupItemsByRows := by
  funext l
  unfold Pop.groupItemsByRows groupItemsByRows
  congr 1
  funext rows item
  exact pushToRow_eq rows item

/-- The two copies' `verticalizeItems` agree. -/
theorem verticalizeItems_eq : Pop.verticalizeItems = verticalizeItems := by
  funext l
  unfold Pop.verticalizeItems verticalizeItems
  rw [groupItemsByRows_eq]
  rfl

/-- C9: the composite navigation implementation of
`ariakit-core/composite/composite-store.ts` and the copy embedded in
`ariakit/combobox/store-combobox-popover.ts` (namespace `Pop`) compute
identical results for `next`, `previous`, `up`, `down`, `first`, `last`
and `move` on every identical composite state and argument. -/
theorem core_popover_copies_agree (s : CompositeState) (skip : Option Nat)
    (id : Option (Option String)) :
    next s skip = Pop.next s skip ∧
    previous s skip = Pop.previous s skip ∧
    up s skip = Pop.up s skip ∧
    down s skip = Pop.down s skip ∧
    first s = Pop.first s ∧
    last s = Pop.last s ∧
    move s id = Pop.move s id := by
  refine ⟨rfl, rfl, ?_, ?_, rfl, rfl, rfl⟩
  · unfold up Pop.up
    rw [verticalizeItems_eq, groupItemsByRows_eq]
    rfl
  · unfold down Pop.down
    rw [verticalizeItems_eq, groupItemsByRows_eq]
    rfl

/-- C8: when a tooltip's disclosure opens while another tooltip holds the
shared active-tooltip token (or when its own timeout is zero), the
disclosure handler takes the immediate branch: no timer is scheduled, the
token moves to the opening instance, its `open` becomes true synchronously,
and the broadcast of the token change sets every other instance's `open`
(in particular the previously active tooltip's) to false. -/
theorem tooltip_opens_immediately (s : TooltipSys)
    (h : s.activeRef = some 1 ∨ s.timeout2 = 0) :
    (tooltipDiscOpen2 s).2 = false ∧
    (tooltipDiscOpen2 s).1.open2 = true ∧
    (tooltipDiscOpen2 s).1.activeRef = some 2 ∧
    (tooltipDiscOpen2 s).1.open1 = false := by
  have hcond : (s.timeout2 == 0 || s.activeRef.isSome) = true := by
    rcases h with h | h
    · simp [h]
    · simp [h]
  simp [tooltipDiscOpen2, hcond, tooltipBroadcast]

/-- C8 witness: tooltip 1 is open with `timeout = 500` and holds the token;
tooltip 2 (also `timeout = 500`) opens via its disclosure: it opens with
zero delay (no timer) and tooltip 1 closes. -/
theorem tooltip_opens_immediately_witness :
    (tooltipDiscOpen2 { activeRef := some 1, open1 := true, open2 := false,
                        timeout1 := 500, timeout2 := 500 }).2 = false ∧
    (tooltipDiscOpen2 { activeRef := some 1, open1 := true, open2 := false,
                        timeout1 := 500, timeout2 := 500 }).1.open2 = true ∧
    (tooltipDiscOpen2 { activeRef := some 1, open1 := true, open2 := false,
                        timeout1 := 500, timeout2 := 500 }).1.activeRef = some 2 ∧
    (tooltipDiscOpen2 { activeRef := some 1, open1 := true, open2 := false,
                        timeout1 := 500, timeout2 := 500 }).1.open1 = false :=
  tooltip_opens_immediately _ (Or.inl rfl)

/-- C3 counterexample: with `renderedItems = [A]` (enabled) and the stale
`activeId = "X"` referencing no rendered item, the sync listener
(`healActiveId`) leaves `activeId = "X"` unchanged even though an enabled
item exists — the store does not recompute a stale, defined active id. -/
theorem heal_keeps_stale_activeId :
    (healActiveId { renderedItems := [itemA], activeId := some (some "X") }).activeId
      = some (some "X") ∧
    (∀ u ∈ ({ renderedItems := [itemA],
              activeId := some (some "X") } : CompositeState).renderedItems,
      u.id ≠ some "X") ∧
    (∃ u ∈ ({ renderedItems := [itemA],
              activeId := some (some "X") } : CompositeState).renderedItems,
      u.isDisabled = false) := by
  refine ⟨rfl, ?_, ⟨itemA, by simp [itemA], rfl⟩⟩
  intro u hu
  simp [itemA] at hu
  simp [hu, itemA]

/-- C3 amended: the sync listener recomputes `activeId` only when it is
`undefined` (setting it to the first enabled item's id, and touching no
other field); any defined `activeId` — including `null` and stale ids not
referencing any rendered item — is kept, so the state is unchanged. -/
theorem heal_recomputes_only_undefined (s : CompositeState) :
    (s.activeId ≠ none → healActiveId s = s) ∧
    (s.activeId = none →
      (healActiveId s).activeId = (findFirstEnabledItem s.renderedItems).map (·.id) ∧
      (healActiveId s).renderedItems = s.renderedItems) := by
  constructor
  · intro h
    cases hs : s.activeId with
    | none => exact absurd hs h
    | some a =>
      show { s with activeId := getActiveId s.renderedItems s.activeId } = s
      rw [hs]
      show { s with activeId := some a } = s
      rw [← hs]
  · intro h
    refine ⟨?_, rfl⟩
    show getActiveId s.renderedItems s.activeId = _
    rw [h]
    rfl

/-- C3 amended, witness: a defined stale id is kept; an `undefined`
`activeId` is recomputed to the first enabled item's id. -/
theorem heal_recomputes_only_undefined_witness :
    healActiveId { renderedItems := [itemA], activeId := some (some "X") }
      = { renderedItems := [itemA], activeId := some (some "X") } ∧
    (healActiveId { renderedItems := [itemA, itemB], activeId := none }).activeId
      = some (some "A") :=
  ⟨(heal_recomputes_only_undefined _).1 (by simp),
   ((heal_recomputes_only_undefined _).2 rfl).1⟩

/-- C5 counterexample: with `rtl = true` and horizontal orientation and
`renderedItems = [A, B]` (all enabled), `first()` still returns `"A"`, the
first enabled item in plain render order — not the first under the
RTL-reversed order, which would be `"B"`.  `first`/`last` never consult
`rtl`. -/
theorem first_ignores_rtl :
    first { renderedItems := [itemA, itemB], rtl := true,
            orientation := .horizontal } = some (some "A") ∧
    (findFirstEnabledItem ([itemA, itemB] : List Item).reverse).map (·.id)
      = some (some "B") := by
  constructor <;> rfl

/-- Splitting a list around its first enabled element determines
`find?` of the enabled-item predicate. -/
theorem find?_enabled_split (pre : List Item) (e : Item) (post : List Item)
    (hp : ∀ x ∈ pre, x.isDisabled = true) (he : e.isDisabled = false) :
    (pre ++ e :: post).find? (fun it => !it.isDisabled) = some e := by
  rw [List.find?_append]
  have h1 : pre.find? (fun it => !it.isDisabled) = none :=
    List.find?_eq_none.mpr (fun x hx => by simp [hp x hx])
  rw [h1, Option.none_or, List.find?_cons]
  simp [he]

/-- C5 amended: `first()` returns the first enabled item's id and `last()`
the last enabled item's id of `renderedItems` in plain render order,
regardless of `activeId` — and also regardless of `rtl` and orientation:
the RTL reversal the spec mentions is applied inside `next`/`previous`,
never inside `first`/`last`. -/
theorem first_last_render_order (s : CompositeState)
    (pre post pre2 post2 : List Item) (e e2 : Item)
    (h1 : s.renderedItems = pre ++ e :: post)
    (h2 : ∀ x ∈ pre, x.isDisabled = true)
    (h3 : e.isDisabled = false)
    (h4 : s.renderedItems = pre2 ++ e2 :: post2)
    (h5 : ∀ x ∈ post2, x.isDisabled = true)
    (h6 : e2.isDisabled = false) :
    first s = some e.id ∧ last s = some e2.id ∧
    (∀ a r o, first { s with activeId := a, rtl := r, orientation := o } = first s ∧
              last { s with activeId := a, rtl := r, orientation := o } = last s) := by
  refine ⟨?_, ?_, fun a r o => ⟨rfl, rfl⟩⟩
  · show (s.renderedItems.find? (fun it => !it.isDisabled)).map (·.id) = some e.id
    rw [h1, find?_enabled_split pre e post h2 h3]
    rfl
  · show (s.renderedItems.reverse.find? (fun it => !it.isDisabled)).map (·.id) = some e2.id
    have hrev : s.renderedItems.reverse = post2.reverse ++ e2 :: pre2.reverse := by
      rw [h4]
      simp [List.reverse_append]
    rw [hrev, find?_enabled_split post2.reverse e2 pre2.reverse
      (fun x hx => h5 x (List.mem_reverse.mp hx)) h6]
    rfl

/-- Disabled variant of item A, for the `[A(disabled), B, C]` scenario. -/
def itemAdis : Item := { id := some "A", disabled := some true }

/-- C5 amended, witness: on `[A(disabled), B, C]`, `first()` returns `"B"`
and `last()` returns `"C"`, for any `activeId`, `rtl` and orientation. -/
theorem first_last_render_order_witness :
    first { renderedItems := [itemAdis, itemB, itemC] } = some (some "B") ∧
    last { renderedItems := [itemAdis, itemB, itemC] } = some (some "C") ∧
    (∀ a r o, first { renderedItems := [itemAdis, itemB, itemC],
                      activeId := a, rtl := r, orientation := o }
        = first { renderedItems := [itemAdis, itemB, itemC] } ∧
      last { renderedItems := [itemAdis, itemB, itemC],
             activeId := a, rtl := r, orientation := o }
        = last { renderedItems := [itemAdis, itemB, itemC] }) :=
  first_last_render_order { renderedItems := [itemAdis, itemB, itemC] }
    [itemAdis] [itemC] [itemAdis, itemB] [] itemB itemC
    rfl (by decide) (by decide) rfl (by decide) (by decide)

/-- The index returned by `findIdx?` points at the element returned by
`find?`. -/
theorem findIdx?_get?_of_find? {α : Type _} {p : α → Bool} {a : α} :
    ∀ {l : List α}, l.find? p = some a →
      ∃ i, l.findIdx? p = some i ∧ l.get? i = some a := by
  intro l
  induction l with
  | nil => intro h; cases h
  | cons b l ih =>
    intro h
    rw [List.find?_cons] at h
    cases hp : p b with
    | true =>
      rw [hp] at h
      cases h
      exact ⟨0, by simp [List.findIdx?_cons, hp], rfl⟩
    | false =>
      rw [hp] at h
      obtain ⟨i, hi, hg⟩ := ih h
      refine ⟨i + 1, ?_, by simpa using hg⟩
      simp [List.findIdx?_cons, hp, List.findIdx?_succ, hi]

/-- C7: `registerItem(item)` followed by the unregister closure it returned
restores the items list exactly — both when an item with the same id
already existed (the previous entry, including fields absent from the new
partial item, is written back at its captured index) and when it did not
(the pushed item is filtered out), with no interleaved registrations. -/
theorem register_unregister_roundtrip (items : List Item) (item : Item) :
    unregisterItemFn (registerItemFn items item).1 item
      (registerItemFn items item).2.1 (registerItemFn items item).2.2 = items := by
  cases hfind : items.find? (fun it => it.id == item.id) with
  | none =>
    simp only [registerItemFn, hfind]
    show (items ++ [item]).filter (fun it => !(it.id == item.id)) = items
    rw [List.filter_append]
    have hself : items.filter (fun it => !(it.id == item.id)) = items :=
      List.filter_eq_self.mpr (fun x hx => by
        have hx2 := List.find?_eq_none.mp hfind x hx
        simpa using hx2)
    have hone : [item].filter (fun it => !(it.id == item.id)) = [] := by simp
    rw [hself, hone, List.append_nil]
  | some prev =>
    obtain ⟨i, hi, hg⟩ := findIdx?_get?_of_find? hfind
    simp only [registerItemFn, hfind, hi, Option.getD_some]
    show (items.set i (mergeFields prev item)).set i prev = items
    rw [List.set_set]
    exact set_of_get?_eq hg

/-- Disabled variant of item B. -/
def itemBdis : Item := { id := some "B", disabled := some true }

/-- C1 counterexample: with single-row items `[A, B, C]` (all enabled) and
`activeId = C` (the last enabled item), the claim's universal statement
fails: (1) with `focusLoop` on and `includesBaseElement = true`, `next()`
returns `null` (the composite base stop), not the first enabled item's id
`"A"`; (2) with `focusLoop = false` and `rtl = true`, `next()` returns
`"B"`, not `undefined`; (3) with `focusLoop` on and `C` the only enabled
item, `next()` returns `undefined`, not the first enabled item's id, which
conjunct (4) shows is `"C"`. -/
theorem next_from_last_enabled_violations :
    next { renderedItems := [itemA, itemB, itemC], activeId := some (some "C"),
           focusLoop := .on, includesBaseElement := true } none = some none ∧
    next { renderedItems := [itemA, itemB, itemC], activeId := some (some "C"),
           rtl := true } none = some (some "B") ∧
    next { renderedItems := [itemAdis, itemBdis, itemC], activeId := some (some "C"),
           focusLoop := .on } none = none ∧
    first { renderedItems := [itemAdis, itemBdis, itemC] } = some (some "C") := by
  refine ⟨?_, ?_, ?_, ?_⟩ <;> rfl

/-- C1 amended: for a single-row composite (no `rowId`) with `rtl = false`
and `includesBaseElement = false`, whose `activeId` is the id of the last
enabled item (`e`, followed only by disabled items, its id unique), `next()`
returns `undefined` when `focusLoop` is `false`, and returns the first
enabled item's id when `focusLoop` is truthy and applicable to the
orientation (not equal to the opposite orientation) and at least one
enabled item precedes the active one (otherwise the search, which excludes
the active id, finds nothing and returns `undefined`). -/
theorem next_from_last_enabled (pre post : List Item) (e : Item) (aid : String)
    (o : Orientation) (fl fw : FocusOpt) (fs : Bool) (m : Nat)
    (hrow : ∀ x ∈ pre ++ e :: post, x.rowId = none)
    (_hen : e.isDisabled = false)
    (hpost : ∀ x ∈ post, x.isDisabled = true)
    (hid : e.id = some aid)
    (huniq : ∀ x ∈ pre ++ post, x.id ≠ some aid) :
    (fl = .off →
      next { renderedItems := pre ++ e :: post, activeId := some (some aid),
             orientation := o, rtl := false, focusLoop := fl, focusWrap := fw,
             focusShift := fs, includesBaseElement := false, moves := m } none
        = none) ∧
    (fl.truthy = true → fl.matchesOpt (getOppositeOrientation o) = false →
      (∃ x ∈ pre, x.isDisabled = false) →
      next { renderedItems := pre ++ e :: post, activeId := some (some aid),
             orientation := o, rtl := false, focusLoop := fl, focusWrap := fw,
             focusShift := fs, includesBaseElement := false, moves := m } none
        = (findFirstEnabledItem (pre ++ e :: post)).map (·.id)) := by
  have hrowe : e.rowId = none := hrow e (by simp)
  have hfind : (pre ++ e :: post).find? (fun it => it.id == some aid) = some e := by
    rw [List.find?_append]
    have h1 : pre.find? (fun it => it.id == some aid) = none :=
      List.find?_eq_none.mpr (fun x hx => by
        simp [huniq x (List.mem_append_left _ hx)])
    rw [h1, Option.none_or, List.find?_cons]
    simp [hid]
  have hidx : (pre ++ e :: post).findIdx? (fun it => it.id == some aid)
      = some pre.length :=
    findIdx?_split (by simp [hid]) pre
      (fun x hx => by simp [huniq x (List.mem_append_left _ hx)]) post
  have hdrop : (pre ++ e :: post).drop (pre.length + 1) = post := by
    simp
  have htake : (pre ++ e :: post).take pre.length = pre :=
    List.take_left pre (e :: post)
  have hfpost : findFirstEnabledItem (post.filter (fun it => it.rowId == e.rowId))
      (some aid) = none := by
    show (post.filter (fun it => it.rowId == e.rowId)).find? _ = none
    refine List.find?_eq_none.mpr (fun x hx => ?_)
    have hd := hpost x (List.mem_of_mem_filter hx)
    simp [hd]
  have hfpost2 : findFirstEnabledItem (post.filter (fun it => it.rowId == (none : Option String)))
      (some aid) = none := by
    show (post.filter (fun it => it.rowId == (none : Option String))).find? _ = none
    refine List.find?_eq_none.mpr (fun x hx => ?_)
    have hd := hpost x (List.mem_of_mem_filter hx)
    simp [hd]
  constructor
  · intro hfl
    subst hfl
    simp [next, getNextId, hfind, hidx, hdrop, hrowe, getItemsInRow, hfpost2,
      FocusOpt.truthy, strTruthy]
  · intro htr hmo hex
    have hcongrElems : ∀ x ∈ post ++ pre,
        (if strTruthy (some aid) then !x.isDisabled && x.id != some aid
         else !x.isDisabled) = !x.isDisabled := by
      intro x hx
      rcases List.mem_append.mp hx with h | h
      · have hd := hpost x h
        simp [hd]
      · have hne := huniq x (List.mem_append_left _ h)
        simp [hne]
    have hpostnone : post.find? (fun it => !it.isDisabled) = none :=
      List.find?_eq_none.mpr (fun x hx => by simp [hpost x hx])
    obtain ⟨x0, hm, hd⟩ := hex
    have hsome : (pre.find? (fun it => !it.isDisabled)).isSome :=
      List.find?_isSome.mpr ⟨x0, hm, by simp [hd]⟩
    obtain ⟨y, hy⟩ := Option.isSome_iff_exists.mp hsome
    have hmain : findFirstEnabledItem (post ++ pre) (some aid) = some y := by
      show (post ++ pre).find? _ = some y
      rw [find?_congr_on hcongrElems, List.find?_append, hpostnone, Option.none_or, hy]
    have hrhs : findFirstEnabledItem (pre ++ e :: post) = some y := by
      show (pre ++ e :: post).find? (fun it => !it.isDisabled) = some y
      rw [List.find?_append, hy]
      rfl
    have hfilterAll : (pre ++ e :: post).filter
        (fun it => it.rowId == (none : Option String)) = pre ++ e :: post :=
      List.filter_eq_self.mpr (fun x hx => by simp [hrow x hx])
    simp [next, getNextId, hfind, hidx, hdrop, htake, hrowe, getItemsInRow,
      flipItems, htr, hmo, hfilterAll, hmain, hrhs, strTruthy]

/-- C1 witness: `[A, B, C]` single row, `activeId = C`: `next()` is
`undefined` with `focusLoop = false`, and `"A"` with `focusLoop = true`. -/
theorem next_from_last_enabled_witness :
    next { renderedItems := [itemA, itemB, itemC], activeId := some (some "C"),
           orientation := .both, rtl := false, focusLoop := .off, focusWrap := .off,
           focusShift := false, includesBaseElement := false, moves := 0 } none
      = none ∧
    next { renderedItems := [itemA, itemB, itemC], activeId := some (some "C"),
           orientation := .both, rtl := false, focusLoop := .on, focusWrap := .off,
           focusShift := false, includesBaseElement := false, moves := 0 } none
      = some (some "A") :=
  ⟨(next_from_last_enabled [itemA, itemB] [] itemC "C" .both .off .off false 0
      (by decide) (by decide) (by decide) (by decide) (by decide)).1 rfl,
   ((next_from_last_enabled [itemA, itemB] [] itemC "C" .both .on .off false 0
      (by decide) (by decide) (by decide) (by decide) (by decide)).2 rfl rfl
      ⟨itemA, by decide, by decide⟩).trans (by decide)⟩

/-! ### C10: navigation candidates come from rendered items -/

/-- Every enabled item of a candidate list carries either the `null` id
(`NULL_ITEM`) or the id of some rendered item. -/
def GoodList (s : CompositeState) (l : List Item) : Prop :=
  ∀ it ∈ l, it.isDisabled = false →
    it.id = none ∨ ∃ u ∈ s.renderedItems, u.id = it.id

/-- A navigation result is `undefined`, `null`, or the id of a rendered
item. -/
def GoodRes (s : CompositeState) (r : Option (Option String)) : Prop :=
  ∀ id, r = some (some id) → ∃ u ∈ s.renderedItems, u.id = some id

theorem goodList_subset {s : CompositeState} {l l' : List Item}
    (hsub : l' ⊆ l) (h : GoodList s l) : GoodList s l' :=
  fun it hit => h it (hsub hit)

theorem goodList_reverse {s : CompositeState} {l : List Item}
    (h : GoodList s l) : GoodList s l.reverse :=
  goodList_subset (by intro x hx; exact List.mem_reverse.mp hx) h

theorem goodList_rendered (s : CompositeState) : GoodList s s.renderedItems :=
  fun it hit _ => Or.inr ⟨it, hit, rfl⟩

/-- A generic fold invariant. -/
theorem foldl_inv {α β : Type _} {P : β → Prop} {f : β → α → β}
    (hstep : ∀ b a, P b → P (f b a)) :
    ∀ (l : List α) (b : β), P b → P (l.foldl f b) := by
  intro l
  induction l with
  | nil => intro b hb; exact hb
  | cons a l ih => intro b hb; exact ih _ (hstep b a hb)

theorem mem_listAssign {row : List Item} {i : Nat} {y x : Item}
    (hx : x ∈ listAssign row i y) : x ∈ row ∨ x = y := by
  unfold listAssign at hx
  split at hx
  · exact List.mem_or_eq_of_mem_set hx
  · rcases List.mem_append.mp hx with h | h
    · exact Or.inl h
    · exact Or.inr (List.mem_singleton.mp h)

/-- Every element produced by a `normStep` is an element of the input row
or disabled (a real neighbour copied by focus shift, or a disabled
placeholder). -/
theorem normStep_mem {a : Option (Option String)} {fs : Bool} {row : List Item}
    {i : Nat} {x : Item} (hx : x ∈ normStep a fs row i) :
    x ∈ row ∨ x.isDisabled = true := by
  simp only [normStep] at hx
  split at hx
  case isFalse => exact Or.inl hx
  case isTrue =>
    rcases hprev : (if (i == 0) = true then
        (if fs then findFirstEnabledItem row else none)
      else row.get? (i - 1)) with _ | p
    · rw [hprev] at hx
      rcases mem_listAssign hx with h | h
      · exact Or.inl h
      · subst h; exact Or.inr rfl
    · rw [hprev] at hx
      have hpmem : p ∈ row := by
        split at hprev
        · split at hprev
          · exact List.mem_of_find?_eq_some hprev
          · cases hprev
        · exact List.get?_mem hprev
      rcases mem_listAssign hx with h | h
      · exact Or.inl h
      · subst h
        dsimp only
        by_cases hc : (a != some p.id && fs) = true
        · rw [if_pos hc]
          exact Or.inl hpmem
        · rw [if_neg hc]
          exact Or.inr rfl

theorem normalizeRow_mem {n : Nat} {a : Option (Option String)} {fs : Bool}
    {row : List Item} :
    ∀ x ∈ normalizeRow n a fs row, x ∈ row ∨ x.isDisabled = true := by
  have h := foldl_inv (P := fun st => ∀ y ∈ st, y ∈ row ∨ y.isDisabled = true)
    (f := normStep a fs)
    (fun b j hb y hy => by
      rcases normStep_mem hy with h2 | h2
      · exact hb y h2
      · exact Or.inr h2)
    (List.range n) row (fun y hy => Or.inl hy)
  exact h

theorem normalizeRows_flatten_mem {rows : List (List Item)}
    {a : Option (Option String)} {fs : Bool} {x : Item}
    (hx : x ∈ (normalizeRows rows a fs).flatten) :
    (∃ r ∈ rows, x ∈ r) ∨ x.isDisabled = true := by
  obtain ⟨r2, hr2, hxr2⟩ := List.mem_flatten.mp hx
  obtain ⟨r, hr, hmap⟩ := List.mem_map.mp hr2
  subst hmap
  rcases normalizeRow_mem x hxr2 with h | h
  · exact Or.inl ⟨r, hr, h⟩
  · exact Or.inr h

theorem pushToRow_flatten_mem {rows : List (List Item)} {it x : Item}
    (hx : x ∈ (pushToRow rows it).flatten) : x ∈ rows.flatten ∨ x = it := by
  induction rows with
  | nil =>
    simp [pushToRow] at hx
    exact Or.inr hx
  | cons row rest ih =>
    rw [pushToRow] at hx
    split at hx
    · simp only [List.flatten_cons, List.mem_append, List.mem_singleton] at hx ⊢
      rcases hx with (h | h) | h
      · exact Or.inl (Or.inl h)
      · exact Or.inr h
      · exact Or.inl (Or.inr h)
    · simp only [List.flatten_cons, List.mem_append] at hx ⊢
      rcases hx with h | h
      · exact Or.inl (Or.inl h)
      · rcases ih h with h2 | h2
        · exact Or.inl (Or.inr h2)
        · exact Or.inr h2

theorem groupItemsByRows_flatten_mem {l : List Item} {x : Item}
    (hx : x ∈ (groupItemsByRows l).flatten) : x ∈ l := by
  suffices h : ∀ (l : List Item) (rows : List (List Item)),
      x ∈ (l.foldl pushToRow rows).flatten → x ∈ rows.flatten ∨ x ∈ l by
    rcases h l [] hx with h2 | h2
    · simp at h2
    · exact h2
  intro l
  induction l with
  | nil => intro rows hx2; exact Or.inl hx2
  | cons a l ih =>
    intro rows hx2
    rcases ih (pushToRow rows a) hx2 with h | h
    · rcases pushToRow_flatten_mem h with h2 | h2
      · exact Or.inl h2
      · exact Or.inr (by simp [h2])
    · exact Or.inr (List.mem_cons_of_mem a h)

/-- Every element of `vertStep rows acc i` is in `acc` or is a
rowId-relabelled copy of an item of some row. -/
theorem vertStep_mem {rows : List (List Item)} {acc : List Item} {i : Nat}
    {x : Item} (hx : x ∈ vertStep rows acc i) :
    x ∈ acc ∨ ∃ y, (∃ r ∈ rows, y ∈ r) ∧ x.id = y.id ∧ x.disabled = y.disabled := by
  simp only [vertStep] at hx
  rcases List.mem_append.mp hx with h | h
  · exact Or.inl h
  · obtain ⟨r, hr, hmap⟩ := List.mem_filterMap.mp h
    obtain ⟨y, hget, hxy⟩ := Option.map_eq_some'.mp hmap
    subst hxy
    exact Or.inr ⟨y, ⟨r, hr, List.get?_mem hget⟩, rfl, rfl⟩

theorem verticalizeItems_mem {l : List Item} {x : Item}
    (hx : x ∈ verticalizeItems l) :
    ∃ y ∈ l, x.id = y.id ∧ x.disabled = y.disabled := by
  have h := foldl_inv
    (P := fun st => ∀ z ∈ st, ∃ y ∈ l, z.id = y.id ∧ z.disabled = y.disabled)
    (f := vertStep (groupItemsByRows l))
    (fun acc j hacc z hz => by
      rcases vertStep_mem hz with h2 | ⟨y, ⟨r, hr, hyr⟩, hid, hdis⟩
      · exact hacc z h2
      · exact ⟨y, groupItemsByRows_flatten_mem (List.mem_flatten.mpr ⟨r, hr, hyr⟩),
          hid, hdis⟩)
    (List.range (getMaxRowLength (groupItemsByRows l))) [] (by simp)
  exact h x hx

theorem goodList_verticalize {s : CompositeState} {l : List Item}
    (hl : GoodList s l) : GoodList s (verticalizeItems l) := by
  intro x hx hdis
  obtain ⟨y, hy, hid, hdis2⟩ := verticalizeItems_mem hx
  have hydis : y.isDisabled = false := by
    unfold Item.isDisabled at hdis ⊢
    rw [← hdis2]
    exact hdis
  rcases hl y hy hydis with h | ⟨u, hu, hui⟩
  · exact Or.inl (hid.trans h)
  · exact Or.inr ⟨u, hu, by rw [hui, hid]⟩

theorem goodList_normalized {s : CompositeState} {l : List Item}
    (hl : GoodList s l) (a : Option (Option String)) (sh : Bool) :
    GoodList s (List.flatten (normalizeRows (groupItemsByRows l) a sh)) := by
  intro x hx hdis
  rcases normalizeRows_flatten_mem hx with ⟨r, hr, hxr⟩ | h
  · exact hl x (groupItemsByRows_flatten_mem (List.mem_flatten.mpr ⟨r, hr, hxr⟩)) hdis
  · rw [h] at hdis
    cases hdis

/-- A `findFirstEnabledItem` result is a member of the list and enabled. -/
theorem findFirst_eq_some_spec {L : List Item} {ex : Option String} {it : Item}
    (h : findFirstEnabledItem L ex = some it) :
    it ∈ L ∧ it.isDisabled = false := by
  have hmem : it ∈ L := List.mem_of_find?_eq_some h
  have hpred := List.find?_some h
  refine ⟨hmem, ?_⟩
  split at hpred
  · simp only [Bool.and_eq_true, Bool.not_eq_true'] at hpred
    exact hpred.1
  · simp only [Bool.not_eq_true'] at hpred
    exact hpred

theorem goodList_findFirst {s : CompositeState} {L : List Item}
    {ex : Option String} {id : String} (hL : GoodList s L)
    (h : (findFirstEnabledItem L ex).map (fun it => it.id) = some (some id)) :
    ∃ u ∈ s.renderedItems, u.id = some id := by
  obtain ⟨it, hfind, hid⟩ := Option.map_eq_some'.mp h
  obtain ⟨hmem, hdis⟩ := findFirst_eq_some_spec hfind
  rcases hL it hmem hdis with h2 | ⟨u, hu, hui⟩
  · rw [h2] at hid
    cases hid
  · exact ⟨u, hu, by rw [hui, hid]⟩

theorem goodRes_of_findFirst_sub {s : CompositeState} {L M : List Item}
    {ex : Option String} {id : String} (hL : GoodList s L) (hsub : M ⊆ L)
    (h : (findFirstEnabledItem M ex).map (fun it => it.id) = some (some id)) :
    ∃ u ∈ s.renderedItems, u.id = some id :=
  goodList_findFirst (goodList_subset hsub hL) h

theorem mem_flipItems {l : List Item} {aid : String} {b : Bool} {x : Item}
    (hx : x ∈ flipItems l aid b) : x ∈ l ∨ x = NULL_ITEM := by
  unfold flipItems at hx
  split at hx
  · simp only [List.mem_append] at hx
    rcases hx with (h | h) | h
    · exact Or.inl (List.drop_subset _ _ h)
    · cases b with
      | true => simp at h; exact Or.inr h
      | false => simp at h
    · exact Or.inl (List.take_subset _ _ h)
  · simp only [List.mem_append] at hx
    rcases hx with (h | h) | h
    · exact Or.inl h
    · cases b with
      | true => simp at h; exact Or.inr h
      | false => simp at h
    · exact Or.inl (List.dropLast_subset _ h)

theorem goodList_flipItems {s : CompositeState} {l : List Item} {aid : String}
    {b : Bool} (hl : GoodList s l) : GoodList s (flipItems l aid b) := by
  intro x hx hdis
  rcases mem_flipItems hx with h | h
  · exact hl x h hdis
  · subst h
    exact Or.inl rfl

/-- Every `getEnabledItems` element is an enabled element of the input. -/
theorem mem_getEnabledItems {l : List Item} {ex : Option String} {x : Item}
    (hx : x ∈ getEnabledItems l ex) : x ∈ l ∧ x.isDisabled = false := by
  have h := List.mem_filter.mp hx
  refine ⟨h.1, ?_⟩
  have hp : (if strTruthy ex then !x.isDisabled && x.id != ex
      else !x.isDisabled) = true := h.2
  split at hp
  · simp only [Bool.and_eq_true, Bool.not_eq_true'] at hp
    exact hp.1
  · simp only [Bool.not_eq_true'] at hp
    exact hp

/-- The core candidate search only returns `undefined`, `null`, or ids of
items of a `GoodList`; in particular, over any candidate list whose enabled
entries carry rendered ids, every returned id is a rendered item's id. -/
theorem getNextId_goodRes (s : CompositeState) (items : List Item)
    (o : Orientation) (hN : Bool) (sk : Option Nat) (hg : GoodList s items) :
    GoodRes s (getNextId s items o hN sk) := by
  intro id hr
  simp only [getNextId] at hr
  have hAll : GoodList s (if (s.rtl && (o != Orientation.vertical)) = true
      then items.reverse else items) := by
    split
    · exact goodList_reverse hg
    · exact hg
  revert hr hAll
  generalize (if (s.rtl && (o != Orientation.vertical)) = true
      then items.reverse else items) = L
  intro hr hAll
  split at hr
  · exact goodList_findFirst hAll hr
  · exact goodList_findFirst hAll hr
  · rename_i aid heqAct
    split at hr
    · exact goodList_findFirst hAll hr
    · rename_i activeItem heqFind
      split at hr
      · -- skip = some k : Home/End search within the row
        rename_i k heqSk
        obtain ⟨it, hit, hid2⟩ := Option.map_eq_some'.mp hr
        have hmemNE : it ∈ getEnabledItems
            (getItemsInRow (L.drop ((L.findIdx?
              (fun item => item.id == some aid)).getD 0 + 1)) activeItem.rowId)
            (some aid) := by
          split at hit
          · rename_i it0 heqHead
            cases hit
            exact List.drop_subset _ _ (mem_of_head?_eq_some heqHead)
          · exact mem_of_getLast?_eq_some hit
        obtain ⟨hmemRow, hdis⟩ := mem_getEnabledItems hmemNE
        have hmemL : it ∈ L :=
          List.drop_subset _ _ ((List.filter_sublist _).subset hmemRow)
        rcases hAll it hmemL hdis with h2 | ⟨u, hu, hui⟩
        · rw [h2] at hid2
          cases hid2
        · exact ⟨u, hu, by rw [hui, hid2]⟩
      · -- skip = none : arrow-key navigation
        split at hr
        · -- canLoop
          refine goodList_findFirst (goodList_flipItems ?_) hr
          split
          · exact hAll
          · exact goodList_subset (List.filter_sublist _).subset hAll
        · split at hr
          · -- canWrap
            split at hr
            · -- hasNullItem : `nextItem?.id || null`
              injection hr with hr2
              unfold jsOrNull at hr2
              split at hr2
              · rename_i s2 heqMap
                split at hr2
                · cases hr2
                · cases hr2
                  refine goodRes_of_findFirst_sub hAll ?_ heqMap
                  intro x hx
                  exact List.drop_subset _ _ ((List.filter_sublist _).subset hx)
              · cases hr2
            · refine goodRes_of_findFirst_sub hAll ?_ hr
              intro x hx
              exact List.drop_subset _ _ hx
          · -- plain: next enabled in row
            split at hr
            · rename_i heqNone
              split at hr
              · cases hr
              · cases hr
            · rename_i nextItem heqFind2
              injection hr with hr2
              obtain ⟨hmemRow, hdis⟩ := findFirst_eq_some_spec heqFind2
              have hmemL : nextItem ∈ L :=
                List.drop_subset _ _ ((List.filter_sublist _).subset hmemRow)
              rcases hAll nextItem hmemL hdis with h2 | ⟨u, hu, hui⟩
              · rw [h2] at hr2
                cases hr2
              · exact ⟨u, hu, by rw [hui, hr2]⟩

theorem goodRes_ne_empty {s : CompositeState} {r : Option (Option String)}
    (hg : GoodRes s r)
    (hemp : ∀ it ∈ s.renderedItems, it.id ≠ some "__EMPTY_ITEM__") :
    r ≠ some (some "__EMPTY_ITEM__") := by
  intro h
  obtain ⟨u, hu, hui⟩ := hg _ h
  exact hemp u hu hui

/-- C10: for every state whose rendered items do not use the reserved id
`__EMPTY_ITEM__`, every id returned by `next`, `previous`, `up`, `down`,
`first` or `last` is `null`, `undefined`, or the id of an item present in
`renderedItems`; in particular the disabled padding placeholder
`__EMPTY_ITEM__` inserted by row normalization is never returned, because
every candidate search skips disabled items. -/
theorem nav_candidates_from_rendered (s : CompositeState) (sk : Option Nat)
    (hemp : ∀ it ∈ s.renderedItems, it.id ≠ some "__EMPTY_ITEM__") :
    GoodRes s (next s sk) ∧ GoodRes s (previous s sk) ∧
    GoodRes s (up s sk) ∧ GoodRes s (down s sk) ∧
    GoodRes s (first s) ∧ GoodRes s (last s) ∧
    next s sk ≠ some (some "__EMPTY_ITEM__") ∧
    previous s sk ≠ some (some "__EMPTY_ITEM__") ∧
    up s sk ≠ some (some "__EMPTY_ITEM__") ∧
    down s sk ≠ some (some "__EMPTY_ITEM__") ∧
    first s ≠ some (some "__EMPTY_ITEM__") ∧
    last s ≠ some (some "__EMPTY_ITEM__") := by
  have hnext : GoodRes s (next s sk) :=
    getNextId_goodRes s s.renderedItems s.orientation false sk (goodList_rendered s)
  have hprev : GoodRes s (previous s sk) :=
    getNextId_goodRes s s.renderedItems.reverse s.orientation _ sk
      (goodList_reverse (goodList_rendered s))
  have hup : GoodRes s (up s sk) :=
    getNextId_goodRes s _ .vertical _ sk
      (goodList_verticalize (goodList_reverse
        (goodList_normalized (goodList_rendered s) s.activeId
          (s.focusShift && !(jsSkipTruthy sk)))))
  have hdown : GoodRes s (down s sk) :=
    getNextId_goodRes s _ .vertical _ sk
      (goodList_verticalize
        (goodList_normalized (goodList_rendered s) s.activeId
          (s.focusShift && !(jsSkipTruthy sk))))
  have hfirst : GoodRes s (first s) :=
    fun _ h => goodList_findFirst (goodList_rendered s) h
  have hlast : GoodRes s (last s) :=
    fun _ h => goodList_findFirst (goodList_reverse (goodList_rendered s)) h
  exact ⟨hnext, hprev, hup, hdown, hfirst, hlast,
    goodRes_ne_empty hnext hemp, goodRes_ne_empty hprev hemp,
    goodRes_ne_empty hup hemp, goodRes_ne_empty hdown hemp,
    goodRes_ne_empty hfirst hemp, goodRes_ne_empty hlast hemp⟩

/-- C10 witness: the guarantee instantiated on the 2×2 grid state with
`activeId = B`. -/
theorem nav_candidates_from_rendered_witness :
    GoodRes { renderedItems := [gridA, gridB, gridC, gridD],
              activeId := some (some "B") }
      (next { renderedItems := [gridA, gridB, gridC, gridD],
              activeId := some (some "B") } none) ∧
    GoodRes { renderedItems := [gridA, gridB, gridC, gridD],
              activeId := some (some "B") }
      (previous { renderedItems := [gridA, gridB, gridC, gridD],
                  activeId := some (some "B") } none) ∧
    GoodRes { renderedItems := [gridA, gridB, gridC, gridD],
              activeId := some (some "B") }
      (up { renderedItems := [gridA, gridB, gridC, gridD],
            activeId := some (some "B") } none) ∧
    GoodRes { renderedItems := [gridA, gridB, gridC, gridD],
              activeId := some (some "B") }
      (down { renderedItems := [gridA, gridB, gridC, gridD],
              activeId := some (some "B") } none) ∧
    GoodRes { renderedItems := [gridA, gridB, gridC, gridD],
              activeId := some (some "B") }
      (first { renderedItems := [gridA, gridB, gridC, gridD],
               activeId := some (some "B") }) ∧
    GoodRes { renderedItems := [gridA, gridB, gridC, gridD],
              activeId := some (some "B") }
      (last { renderedItems := [gridA, gridB, gridC, gridD],
              activeId := some (some "B") }) ∧
    next { renderedItems := [gridA, gridB, gridC, gridD],
           activeId := some (some "B") } none ≠ some (some "__EMPTY_ITEM__") ∧
    previous { renderedItems := [gridA, gridB, gridC, gridD],
               activeId := some (some "B") } none ≠ some (some "__EMPTY_ITEM__") ∧
    up { renderedItems := [gridA, gridB, gridC, gridD],
         activeId := some (some "B") } none ≠ some (some "__EMPTY_ITEM__") ∧
    down { renderedItems := [gridA, gridB, gridC, gridD],
           activeId := some (some "B") } none ≠ some (some "__EMPTY_ITEM__") ∧
    first { renderedItems := [gridA, gridB, gridC, gridD],
            activeId := some (some "B") } ≠ some (some "__EMPTY_ITEM__") ∧
    last { renderedItems := [gridA, gridB, gridC, gridD],
           activeId := some (some "B") } ≠ some (some "__EMPTY_ITEM__") :=
  nav_candidates_from_rendered
    { renderedItems := [gridA, gridB, gridC, gridD], activeId := some (some "B") }
    none (by decide)

end Ariakit
